import Mathlib

/-!
Shallow embedding of `trac/mimeview/pygments_renderer.py` (the `PygmentsRenderer`
component and the `GenshiHtmlFormatter.generate` token coalescer), together with
theorems settling the specification claims about it.

Conventions of the embedding:

* A Pygments token is a pair `(ttype, value) : C × String` where `C` is the opaque
  type of token classifications.  The map `self._get_css_class` of the Pygments
  `HtmlFormatter` base class is external to the repository; it is modelled as an
  arbitrary function `cssOf : C → String` (it is not injective in Pygments: for
  instance both `Token` and `Token.Text` map to the empty class string `""`).
* The Genshi value `Attrs([(QName('class'), css)])` is a one-element tuple, hence
  it is truthy for every `css` string, including `""`.  Consequently in the source
  the guard `if attrs:` always fires, and `if lattrs:` is equivalent to
  `lattrs is not None`.  The embedding below therefore represents `lattrs` as an
  `Option String` (`none` for Python `None`, `some css` for an `Attrs` built from
  the css class string) and emits the `START` event unconditionally in the
  `elif value:` branch.
* Genshi stream events `(START, (span, attrs), pos)`, `(END, span, pos)` and
  `(TEXT, value, pos)` become the three `MarkupEvent` constructors; the constant
  `pos` and the constant tag `span` carry no information and are dropped.
* The lazy generator is modelled as the (finite) list of the events it yields.
-/

namespace PygmentsRenderer

/-- A markup event yielded by `GenshiHtmlFormatter.generate`:
`(START, (span, attrs), pos)` opening a `<span>` with a css class,
`(END, span, pos)` closing it, or `(TEXT, value, pos)` character data. -/
inductive MarkupEvent where
  | SpanOpen (cssClass : String)
  | SpanClose
  | Text (value : String)
  deriving DecidableEq, Repr

/-- The loop body of the inner generator `_generate` of
`GenshiHtmlFormatter.generate`, parameterised by the state `lattrs` carried
across iterations.  Faithful transcription of

```
for ttype, value in tokens:
    attrs = Attrs([(QName('class'), self._get_css_class(ttype))])
    if attrs == lattrs:
        yield TEXT, value, pos
    elif value: # if no value, leave old span open
        if lattrs:
            yield END, span, pos
        lattrs = attrs
        if attrs:
            yield START, (span, attrs), pos
        yield TEXT, value, pos
if lattrs:
    yield END, span, pos
```

where `attrs == lattrs` holds exactly when `lattrs` is an `Attrs` with the same
css class string (comparison with `None` is `False`), `if lattrs:` tests
`lattrs ≠ None`, and `if attrs:` always succeeds because `attrs` is a
one-element tuple. -/
def generateFrom {C : Type} (cssOf : C → String) :
    Option String → List (C × String) → List MarkupEvent
  | lattrs, [] =>
      if lattrs.isSome then [MarkupEvent.SpanClose] else []
  | lattrs, (ttype, value) :: rest =>
      let attrs := cssOf ttype
      if lattrs = some attrs then
        MarkupEvent.Text value :: generateFrom cssOf lattrs rest
      else if value ≠ "" then
        (if lattrs.isSome then [MarkupEvent.SpanClose] else []) ++
          MarkupEvent.SpanOpen attrs :: MarkupEvent.Text value ::
            generateFrom cssOf (some attrs) rest
      else
        generateFrom cssOf lattrs rest

/-- `GenshiHtmlFormatter.generate(tokens)`: run the coalescing generator with the
initial state `lattrs = None`. -/
def generate {C : Type} (cssOf : C → String) (tokens : List (C × String)) :
    List MarkupEvent :=
  generateFrom cssOf none tokens

/-- Concatenation of the payloads of all `Text` events, in emission order. -/
def textContent : List MarkupEvent → String
  | [] => ""
  | MarkupEvent.Text s :: rest => s ++ textContent rest
  | MarkupEvent.SpanOpen _ :: rest => textContent rest
  | MarkupEvent.SpanClose :: rest => textContent rest

/-- Concatenation of the texts of a token sequence, in order. -/
def tokensText {C : Type} : List (C × String) → String
  | [] => ""
  | t :: rest => t.2 ++ tokensText rest

section EquationLemmas

variable {C : Type} (cssOf : C → String)

theorem generateFrom_nil (lattrs : Option String) :
    generateFrom cssOf lattrs [] =
      if lattrs.isSome then [MarkupEvent.SpanClose] else [] := by
  cases lattrs <;> rfl

theorem generateFrom_cons_same {lattrs : Option String} {t : C × String}
    (ts : List (C × String)) (h : lattrs = some (cssOf t.1)) :
    generateFrom cssOf lattrs (t :: ts) =
      MarkupEvent.Text t.2 :: generateFrom cssOf lattrs ts := by
  obtain ⟨ttype, value⟩ := t
  simp only [generateFrom, if_pos h]

theorem generateFrom_cons_new {lattrs : Option String} {t : C × String}
    (ts : List (C × String)) (h1 : lattrs ≠ some (cssOf t.1)) (h2 : t.2 ≠ "") :
    generateFrom cssOf lattrs (t :: ts) =
      (if lattrs.isSome then [MarkupEvent.SpanClose] else []) ++
        MarkupEvent.SpanOpen (cssOf t.1) :: MarkupEvent.Text t.2 ::
          generateFrom cssOf (some (cssOf t.1)) ts := by
  obtain ⟨ttype, value⟩ := t
  simp only [generateFrom, if_neg h1, if_pos h2]

theorem generateFrom_cons_empty {lattrs : Option String} {t : C × String}
    (ts : List (C × String)) (h1 : lattrs ≠ some (cssOf t.1)) (h2 : t.2 = "") :
    generateFrom cssOf lattrs (t :: ts) = generateFrom cssOf lattrs ts := by
  obtain ⟨ttype, value⟩ := t
  simp only at h2
  subst h2
  simp only [generateFrom, if_neg h1, ne_eq, not_true_eq_false, if_neg,
    ite_false]

end EquationLemmas

section Losslessness

variable {C : Type}

theorem textContent_generateFrom (cssOf : C → String) (ts : List (C × String)) :
    ∀ lattrs : Option String,
      textContent (generateFrom cssOf lattrs ts) = tokensText ts := by
  induction ts with
  | nil =>
      intro lattrs
      cases lattrs <;> simp [generateFrom, textContent, tokensText]
  | cons t rest ih =>
      intro lattrs
      by_cases h1 : lattrs = some (cssOf t.1)
      · rw [generateFrom_cons_same cssOf rest h1]
        simp [textContent, tokensText, ih]
      · by_cases h2 : t.2 = ""
        · rw [generateFrom_cons_empty cssOf rest h1 h2]
          simp [tokensText, h2, ih]
        · rw [generateFrom_cons_new cssOf rest h1 h2]
          cases lattrs <;> simp [textContent, tokensText, ih]

/-- C1: the token coalescer is lossless — concatenating the payloads of all
`Text` events of `GenshiHtmlFormatter.generate`, in emission order, equals the
concatenation of all input token texts in input order. -/
theorem generate_lossless (cssOf : C → String) (tokens : List (C × String)) :
    textContent (generate cssOf tokens) = tokensText tokens :=
  textContent_generateFrom cssOf tokens none

end Losslessness

section WellNestedness

variable {C : Type}

/-- Depth-one well-nestedness checker for a markup event sequence, as a state
machine whose Boolean state records whether a span is currently open.  It
accepts exactly the sequences in which a `SpanOpen` occurs only with no span
open (so no second `SpanOpen` before the matching `SpanClose` — nesting depth
never exceeds 1), a `SpanClose` occurs only with a span open (no close without
a prior unmatched open), and no span remains open after the final event. -/
def wellNestedFrom : Bool → List MarkupEvent → Bool
  | opened, [] => !opened
  | opened, MarkupEvent.SpanOpen _ :: rest => !opened && wellNestedFrom true rest
  | opened, MarkupEvent.SpanClose :: rest => opened && wellNestedFrom false rest
  | opened, MarkupEvent.Text _ :: rest => wellNestedFrom opened rest

theorem wellNestedFrom_generateFrom (cssOf : C → String)
    (ts : List (C × String)) :
    ∀ lattrs : Option String,
      wellNestedFrom lattrs.isSome (generateFrom cssOf lattrs ts) = true := by
  induction ts with
  | nil =>
      intro lattrs
      cases lattrs <;> simp [generateFrom, wellNestedFrom]
  | cons t rest ih =>
      intro lattrs
      by_cases h1 : lattrs = some (cssOf t.1)
      · rw [generateFrom_cons_same cssOf rest h1]
        simpa [wellNestedFrom] using ih lattrs
      · by_cases h2 : t.2 = ""
        · rw [generateFrom_cons_empty cssOf rest h1 h2]
          exact ih lattrs
        · rw [generateFrom_cons_new cssOf rest h1 h2]
          cases lattrs <;>
            simpa [wellNestedFrom] using ih (some (cssOf t.1))

/-- C2: the coalescer's output is well-nested with nesting depth at most 1 —
starting with no span open, every `SpanOpen` occurs with no span open, every
`SpanClose` with a span open, and no span remains open at the end. -/
theorem generate_wellNested (cssOf : C → String) (tokens : List (C × String)) :
    wellNestedFrom false (generate cssOf tokens) = true :=
  wellNestedFrom_generateFrom cssOf tokens none

end WellNestedness

section Coalescing

/-- A concrete css-class map on `Bool` classifications with two distinct
css classes, used to instantiate the coalescing theorems. -/
def cssBool : Bool → String := fun b => if b then "k" else "s"

/-- C3 counterexample: the claim quantifies over distinct classifications `A`
and `B`, but the source compares `Attrs` values, i.e. css class strings
(`self._get_css_class(ttype)`), not classifications.  Pygments maps both the
distinct classifications `Token` and `Token.Text` to the css class `""`, and
for any css map identifying `A` and `B` the third token is coalesced into the
first span instead of closing it and opening a new one. -/
theorem generate_coalesce_triple_cex :
    ("Token" : String) ≠ "Token.Text" ∧
    generate (fun _ : String => "")
        [("Token", "x"), ("Token", "y"), ("Token.Text", "z")] ≠
      [MarkupEvent.SpanOpen "", MarkupEvent.Text "x", MarkupEvent.Text "y",
       MarkupEvent.SpanClose, MarkupEvent.SpanOpen "", MarkupEvent.Text "z",
       MarkupEvent.SpanClose] := by
  decide

/-- C3 (amended): for classifications `A`, `B` whose css classes differ,
coalescing `[(A,"x"), (A,"y"), (B,"z")]` yields exactly
`SpanOpen(css(A)), Text("x"), Text("y"), SpanClose, SpanOpen(css(B)),
Text("z"), SpanClose` — the two adjacent `A`-tokens produce a single span and
the change to `B` closes it and opens a new one. -/
theorem generate_coalesce_triple {C : Type} (cssOf : C → String) (A B : C)
    (h : cssOf A ≠ cssOf B) :
    generate cssOf [(A, "x"), (A, "y"), (B, "z")] =
      [MarkupEvent.SpanOpen (cssOf A), MarkupEvent.Text "x",
       MarkupEvent.Text "y", MarkupEvent.SpanClose,
       MarkupEvent.SpanOpen (cssOf B), MarkupEvent.Text "z",
       MarkupEvent.SpanClose] := by
  simp [generate, generateFrom, h]

/-- Closed instance of the amended C3 theorem at a concrete css map. -/
theorem generate_coalesce_triple_witness :
    generate cssBool [(true, "x"), (true, "y"), (false, "z")] =
      [MarkupEvent.SpanOpen (cssBool true), MarkupEvent.Text "x",
       MarkupEvent.Text "y", MarkupEvent.SpanClose,
       MarkupEvent.SpanOpen (cssBool false), MarkupEvent.Text "z",
       MarkupEvent.SpanClose] :=
  generate_coalesce_triple cssBool true false (by decide)

/-- C4 counterexample: for distinct classifications `A`, `B` with equal css
classes (e.g. Pygments' `Token` and `Token.Text`, both mapped to `""`), the
empty-text `B` token takes the `attrs == lattrs` branch of the source and
yields a `TEXT` event with empty payload, so the output is not exactly
`SpanOpen, Text "x", Text "y", SpanClose`. -/
theorem generate_empty_token_cex :
    ("Token" : String) ≠ "Token.Text" ∧
    generate (fun _ : String => "")
        [("Token", "x"), ("Token.Text", ""), ("Token", "y")] ≠
      [MarkupEvent.SpanOpen "", MarkupEvent.Text "x", MarkupEvent.Text "y",
       MarkupEvent.SpanClose] := by
  decide

/-- C4 (amended): for classifications `A`, `B` whose css classes differ,
coalescing `[(A,"x"), (B,""), (A,"y")]` yields exactly
`SpanOpen(css(A)), Text("x"), Text("y"), SpanClose` — the empty-text `B`
token emits nothing and does not change the currently open span. -/
theorem generate_empty_token_no_boundary {C : Type} (cssOf : C → String)
    (A B : C) (h : cssOf A ≠ cssOf B) :
    generate cssOf [(A, "x"), (B, ""), (A, "y")] =
      [MarkupEvent.SpanOpen (cssOf A), MarkupEvent.Text "x",
       MarkupEvent.Text "y", MarkupEvent.SpanClose] := by
  simp [generate, generateFrom, h]

/-- Closed instance of the amended C4 theorem at a concrete css map. -/
theorem generate_empty_token_no_boundary_witness :
    generate cssBool [(true, "x"), (false, ""), (true, "y")] =
      [MarkupEvent.SpanOpen (cssBool true), MarkupEvent.Text "x",
       MarkupEvent.Text "y", MarkupEvent.SpanClose] :=
  generate_empty_token_no_boundary cssBool true false (by decide)

/-- C5: evaluation at the failing input.  When a non-empty token's
classification maps to the "no special class" sentinel `""` (as
`HtmlFormatter._get_css_class` does for unstyled token types), the source
still emits `START` — `attrs = Attrs([(QName('class'), '')])` is a one-element
tuple and therefore truthy, so the guard `if attrs:` always fires — producing
a `<span class="">` wrapper instead of the bare text the claim describes. -/
theorem generate_sentinel_opens_span :
    generate (fun _ : Unit => "") [((), "x")] =
      [MarkupEvent.SpanOpen "", MarkupEvent.Text "x",
       MarkupEvent.SpanClose] := by
  decide

end Coalescing

section SpanCount

variable {C : Type}

/-- Number of `SpanOpen` events in a markup event sequence. -/
def countOpens : List MarkupEvent → Nat
  | [] => 0
  | MarkupEvent.SpanOpen _ :: rest => countOpens rest + 1
  | MarkupEvent.SpanClose :: rest => countOpens rest
  | MarkupEvent.Text _ :: rest => countOpens rest

/-- Number of `SpanClose` events in a markup event sequence. -/
def countCloses : List MarkupEvent → Nat
  | [] => 0
  | MarkupEvent.SpanOpen _ :: rest => countCloses rest
  | MarkupEvent.SpanClose :: rest => countCloses rest + 1
  | MarkupEvent.Text _ :: rest => countCloses rest

/-- Some two adjacent tokens of the sequence have the same classification. -/
def hasAdjSameClass : List (C × String) → Prop
  | [] => False
  | [_] => False
  | a :: b :: rest => a.1 = b.1 ∨ hasAdjSameClass (b :: rest)

theorem countOpens_append (xs ys : List MarkupEvent) :
    countOpens (xs ++ ys) = countOpens xs + countOpens ys := by
  induction xs with
  | nil => simp [countOpens]
  | cons e rest ih =>
      cases e <;> simp [countOpens, ih]
      omega

theorem countCloses_append (xs ys : List MarkupEvent) :
    countCloses (xs ++ ys) = countCloses xs + countCloses ys := by
  induction xs with
  | nil => simp [countCloses]
  | cons e rest ih =>
      cases e <;> simp [countCloses, ih]
      omega

theorem countOpens_generateFrom_le (cssOf : C → String)
    (ts : List (C × String)) :
    ∀ lattrs : Option String,
      countOpens (generateFrom cssOf lattrs ts) ≤ ts.length := by
  induction ts with
  | nil =>
      intro lattrs
      cases lattrs <;> simp [generateFrom, countOpens]
  | cons t rest ih =>
      intro lattrs
      by_cases h1 : lattrs = some (cssOf t.1)
      · rw [generateFrom_cons_same cssOf rest h1]
        simpa [countOpens] using Nat.le_succ_of_le (ih lattrs)
      · by_cases h2 : t.2 = ""
        · rw [generateFrom_cons_empty cssOf rest h1 h2]
          simpa using Nat.le_succ_of_le (ih lattrs)
        · rw [generateFrom_cons_new cssOf rest h1 h2]
          cases lattrs <;>
            · simp [countOpens_append, countOpens]
              have := ih (some (cssOf t.1))
              omega

theorem countCloses_generateFrom (cssOf : C → String)
    (ts : List (C × String)) :
    ∀ lattrs : Option String,
      countCloses (generateFrom cssOf lattrs ts) =
        countOpens (generateFrom cssOf lattrs ts) +
          (if lattrs.isSome then 1 else 0) := by
  induction ts with
  | nil =>
      intro lattrs
      cases lattrs <;> simp [generateFrom, countOpens, countCloses]
  | cons t rest ih =>
      intro lattrs
      by_cases h1 : lattrs = some (cssOf t.1)
      · rw [generateFrom_cons_same cssOf rest h1]
        simpa [countOpens, countCloses] using ih lattrs
      · by_cases h2 : t.2 = ""
        · rw [generateFrom_cons_empty cssOf rest h1 h2]
          exact ih lattrs
        · rw [generateFrom_cons_new cssOf rest h1 h2]
          cases lattrs <;>
            · simp [countOpens_append, countCloses_append, countOpens,
                countCloses]
              have := ih (some (cssOf t.1))
              simp at this
              omega

theorem countOpens_generateFrom_lt (cssOf : C → String)
    (ts : List (C × String)) :
    ∀ lattrs : Option String, hasAdjSameClass ts →
      countOpens (generateFrom cssOf lattrs ts) < ts.length := by
  induction ts with
  | nil => intro lattrs h; exact absurd h id
  | cons a tail ih =>
      intro lattrs h
      match tail, h with
      | b :: rest, h =>
        rcases h with hab | htail
        · -- the first two tokens share a classification: the pair contributes
          -- at most one `SpanOpen`, the rest at most one per token
          by_cases h1 : lattrs = some (cssOf a.1)
          · rw [generateFrom_cons_same cssOf (b :: rest) h1]
            have hle := countOpens_generateFrom_le cssOf (b :: rest) lattrs
            simp [countOpens, List.length] at hle ⊢
            omega
          · by_cases h2 : a.2 = ""
            · rw [generateFrom_cons_empty cssOf (b :: rest) h1 h2]
              have hle := countOpens_generateFrom_le cssOf (b :: rest) lattrs
              simp [List.length] at hle ⊢
              omega
            · rw [generateFrom_cons_new cssOf (b :: rest) h1 h2]
              have hb : (some (cssOf a.1) : Option String) = some (cssOf b.1) := by
                rw [hab]
              rw [generateFrom_cons_same cssOf rest hb]
              have hle := countOpens_generateFrom_le cssOf rest (some (cssOf a.1))
              cases lattrs <;>
                · simp [countOpens_append, countOpens, List.length]
                  omega
        · -- an adjacent equal pair lies in the tail: induction hypothesis
          by_cases h1 : lattrs = some (cssOf a.1)
          · rw [generateFrom_cons_same cssOf (b :: rest) h1]
            have := ih lattrs htail
            simp [countOpens, List.length] at this ⊢
            omega
          · by_cases h2 : a.2 = ""
            · rw [generateFrom_cons_empty cssOf (b :: rest) h1 h2]
              have := ih lattrs htail
              simp [List.length] at this ⊢
              omega
            · rw [generateFrom_cons_new cssOf (b :: rest) h1 h2]
              have := ih (some (cssOf a.1)) htail
              cases lattrs <;>
                · simp [countOpens_append, countOpens, List.length] at this ⊢
                  omega

/-- C6: the coalescer emits as many `SpanClose` as `SpanOpen` events (so the
spans form pairs), the number of such pairs is at most the number of input
tokens, and it is strictly smaller whenever some two adjacent input tokens
share the same classification. -/
theorem generate_span_count_bound (cssOf : C → String)
    (tokens : List (C × String)) :
    countCloses (generate cssOf tokens) = countOpens (generate cssOf tokens) ∧
    countOpens (generate cssOf tokens) ≤ tokens.length ∧
    (hasAdjSameClass tokens →
      countOpens (generate cssOf tokens) < tokens.length) := by
  refine ⟨?_, countOpens_generateFrom_le cssOf tokens none,
    fun h => countOpens_generateFrom_lt cssOf tokens none h⟩
  simpa using countCloses_generateFrom cssOf tokens none

/-- Closed instance of C6 at a sequence with two adjacent same-class tokens. -/
theorem generate_span_count_bound_witness :
    countCloses (generate cssBool [(true, "x"), (true, "y"), (false, "z")]) =
      countOpens (generate cssBool [(true, "x"), (true, "y"), (false, "z")]) ∧
    countOpens (generate cssBool [(true, "x"), (true, "y"), (false, "z")]) ≤ 3 ∧
    countOpens (generate cssBool [(true, "x"), (true, "y"), (false, "z")]) < 3 :=
  ⟨(generate_span_count_bound cssBool
      [(true, "x"), (true, "y"), (false, "z")]).1,
   (generate_span_count_bound cssBool
      [(true, "x"), (true, "y"), (false, "z")]).2.1,
   (generate_span_count_bound cssBool
      [(true, "x"), (true, "y"), (false, "z")]).2.2 (Or.inl rfl)⟩

end SpanCount

section GrammarResolver

/-- A Python `dict` with string keys, modelled extensionally as its lookup
function (iteration order of `self._types` is never used by the source). -/
abbrev Dict (α : Type) := String → Option α

/-- The empty dict `{}`. -/
def Dict.empty {α : Type} : Dict α := fun _ => none

/-- `d[k] = v`: dict assignment overwrites any existing entry for `k`. -/
def Dict.set {α : Type} (d : Dict α) (k : String) (v : α) : Dict α :=
  fun q => if q = k then some v else d q

/-- `d.update(m)`: assign every key/value pair of `m`, in order, into `d`. -/
def updateAll {α : Type} (d : Dict α) (m : List (String × α)) : Dict α :=
  m.foldl (fun d kv => d.set kv.1 kv.2) d

/-- `PygmentsRenderer.QUALITY_RATIO = 7`, the default quality. -/
def QUALITY_RATIO : Int := 7

/-- A record yielded by `get_all_lexers()`, restricted to the two fields the
`_init_types` loop reads: `aliases[0]` (Pygments lexer records declare a
non-empty alias list, so the first alias is modelled directly) and the list
of declared MIME types. -/
abbrev LexerInfo : Type := String × List String

/-- The inner loop of `_init_types` for one lexer:
`for mimetype in mimetypes: self._types[mimetype] = (aliases[0], self.QUALITY_RATIO)`. -/
def insertLexerTypes (d : Dict (String × Int)) (lexer : LexerInfo) :
    Dict (String × Int) :=
  lexer.2.foldl (fun d mimetype => d.set mimetype (lexer.1, QUALITY_RATIO)) d

/-- The built-in part of the `_init_types` table: the outer loop over
`get_all_lexers()`. -/
def builtinTypes (lexers : List LexerInfo) : Dict (String × Int) :=
  lexers.foldl insertLexerTypes Dict.empty

/-- `PygmentsRenderer._init_types`: build the built-in table from the known
lexers, then `self._types.update(...)` with the configured overrides
(`Mimeview.configured_modes_mapping('pygments')`, an external mapping of MIME
type to `(mode, quality)` pairs, passed in here as a list of its items). -/
def init_types (lexers : List LexerInfo)
    (overrides : List (String × String × Int)) : Dict (String × Int) :=
  updateAll (builtinTypes lexers) overrides

/-- `PygmentsRenderer.get_quality_ratio`: `self._types[mimetype][1]`, with
`except KeyError: return 0`. -/
def get_quality_ratio (types : Dict (String × Int)) (mimetype : String) :
    Int :=
  match types mimetype with
  | some entry => entry.2
  | none => 0

/-- The last lexer in enumeration order that declares MIME type `m` (dict
assignment in the `_init_types` loop makes the last writer win). -/
def lastDeclaring (m : String) : List LexerInfo → Option LexerInfo
  | [] => none
  | lexer :: rest =>
      match lastDeclaring m rest with
      | some found => some found
      | none => if m ∈ lexer.2 then some lexer else none

theorem foldl_set_const {α : Type} (v : α) (ms : List String) :
    ∀ (d : Dict α) (q : String),
      (ms.foldl (fun d mt => d.set mt v) d) q =
        if q ∈ ms then some v else d q := by
  induction ms with
  | nil => intro d q; simp
  | cons mt rest ih =>
      intro d q
      simp only [List.foldl_cons, ih, List.mem_cons]
      by_cases hq : q ∈ rest
      · simp [hq]
      · by_cases hmt : q = mt <;> simp [Dict.set, hq, hmt]

theorem insertLexerTypes_apply (lexer : LexerInfo) (d : Dict (String × Int))
    (q : String) :
    insertLexerTypes d lexer q =
      if q ∈ lexer.2 then some (lexer.1, QUALITY_RATIO) else d q :=
  foldl_set_const (lexer.1, QUALITY_RATIO) lexer.2 d q

theorem foldl_insertLexerTypes (lexers : List LexerInfo) :
    ∀ (d : Dict (String × Int)) (m : String),
      (lexers.foldl insertLexerTypes d) m =
        match lastDeclaring m lexers with
        | some lexer => some (lexer.1, QUALITY_RATIO)
        | none => d m := by
  induction lexers with
  | nil => intro d m; simp [lastDeclaring]
  | cons lexer rest ih =>
      intro d m
      simp only [List.foldl_cons, ih, lastDeclaring]
      cases hrest : lastDeclaring m rest with
      | some found => simp
      | none =>
          by_cases hm : m ∈ lexer.2 <;> simp [insertLexerTypes_apply, hm]

theorem builtinTypes_apply (lexers : List LexerInfo) (m : String) :
    builtinTypes lexers m =
      (lastDeclaring m lexers).map (fun lexer => (lexer.1, QUALITY_RATIO)) := by
  rw [builtinTypes, foldl_insertLexerTypes]
  cases lastDeclaring m lexers <;> simp [Dict.empty]

theorem updateAll_apply {α : Type} (m : List (String × α)) :
    ∀ (d : Dict α) (k : String),
      updateAll d m k =
        match updateAll Dict.empty m k with
        | some v => some v
        | none => d k := by
  induction m with
  | nil => intro d k; simp [updateAll, Dict.empty]
  | cons kv rest ih =>
      intro d k
      simp only [updateAll, List.foldl_cons] at ih ⊢
      rw [ih (d.set kv.1 kv.2), ih (Dict.empty.set kv.1 kv.2)]
      cases hrest : (rest.foldl (fun d kv => d.set kv.1 kv.2) Dict.empty) k with
      | some v => simp
      | none =>
          by_cases hk : k = kv.1 <;> simp [Dict.set, Dict.empty, hk]

theorem lastDeclaring_mem {m : String} (lexers : List LexerInfo) :
    ∀ {lexer : LexerInfo}, lastDeclaring m lexers = some lexer →
      lexer ∈ lexers ∧ m ∈ lexer.2 := by
  induction lexers with
  | nil => intro lexer h; exact absurd h (by simp [lastDeclaring])
  | cons first rest ih =>
      intro lexer h
      rw [lastDeclaring] at h
      cases hrest : lastDeclaring m rest with
      | some found =>
          rw [hrest] at h
          obtain rfl : found = lexer := by simpa using h
          exact ⟨List.mem_cons_of_mem first (ih hrest).1, (ih hrest).2⟩
      | none =>
          rw [hrest] at h
          by_cases hm : m ∈ first.2
          · rw [if_pos hm] at h
            obtain rfl : first = lexer := by simpa using h
            exact ⟨List.mem_cons_self _ _, hm⟩
          · rw [if_neg hm] at h
            exact absurd h (by simp)

theorem lastDeclaring_isSome {m : String} {lexers : List LexerInfo}
    {lexer : LexerInfo} (hmem : lexer ∈ lexers) (hdecl : m ∈ lexer.2) :
    (lastDeclaring m lexers).isSome := by
  induction lexers with
  | nil => exact absurd hmem (List.not_mem_nil lexer)
  | cons first rest ih =>
      rw [lastDeclaring]
      cases hrest : lastDeclaring m rest with
      | some found => simp
      | none =>
          rcases List.mem_cons.mp hmem with rfl | hmem'
          · simp [hdecl]
          · have := ih hmem'
            rw [hrest] at this
            exact absurd this (by simp)

/-- C8: after `_init_types`, (i) a configured override for a MIME type
completely determines its entry — both grammar id and quality — regardless of
the built-in table; (ii) a MIME type with no configured override maps to
`(first alias, QUALITY_RATIO)` of the last enumerated lexer declaring it
(dict assignment makes the last writer win when several lexers declare the
same MIME type); hence (iii) every MIME type declared by some known lexer and
not overridden is mapped to the pair `(first alias of a lexer declaring it,
QUALITY_RATIO = 7)`. -/
theorem init_types_override_precedence (lexers : List LexerInfo)
    (overrides : List (String × String × Int)) (m : String) :
    (∀ g q, updateAll Dict.empty overrides m = some (g, q) →
      init_types lexers overrides m = some (g, q)) ∧
    (updateAll Dict.empty overrides m = none →
      init_types lexers overrides m =
        (lastDeclaring m lexers).map (fun lexer => (lexer.1, QUALITY_RATIO))) ∧
    (∀ lexer, lexer ∈ lexers → m ∈ lexer.2 →
      updateAll Dict.empty overrides m = none →
      ∃ decl, decl ∈ lexers ∧ m ∈ decl.2 ∧
        init_types lexers overrides m = some (decl.1, QUALITY_RATIO)) := by
  have hover : ∀ v, updateAll Dict.empty overrides m = some v →
      init_types lexers overrides m = some v := by
    intro v hov
    have happ := updateAll_apply overrides (builtinTypes lexers) m
    rw [hov] at happ
    exact happ
  have hnoover : updateAll Dict.empty overrides m = none →
      init_types lexers overrides m = builtinTypes lexers m := by
    intro hov
    have happ := updateAll_apply overrides (builtinTypes lexers) m
    rw [hov] at happ
    exact happ
  refine ⟨fun g q hov => hover (g, q) hov, ?_, ?_⟩
  · intro hov
    rw [hnoover hov, builtinTypes_apply]
  · intro lexer hmem hdecl hov
    have hsome := lastDeclaring_isSome hmem hdecl
    cases hlast : lastDeclaring m lexers with
    | none => rw [hlast] at hsome; exact absurd hsome (by simp)
    | some decl =>
        obtain ⟨hdmem, hddecl⟩ := lastDeclaring_mem lexers hlast
        refine ⟨decl, hdmem, hddecl, ?_⟩
        rw [hnoover hov, builtinTypes_apply, hlast]
        rfl

/-- Closed instance of C8: an override replaces a built-in entry entirely,
and without overrides a declared MIME type gets `(first alias, 7)`. -/
theorem init_types_override_precedence_witness :
    init_types [("py", ["text/x-python"])] [("text/x-python", ("py3", 9))]
        "text/x-python" = some ("py3", 9) ∧
    init_types [("py", ["text/x-python"])] [] "text/x-python" =
      some ("py", QUALITY_RATIO) := by
  constructor
  · exact (init_types_override_precedence [("py", ["text/x-python"])]
      [("text/x-python", ("py3", 9))] "text/x-python").1 "py3" 9 (by decide)
  · have h := (init_types_override_precedence [("py", ["text/x-python"])]
      [] "text/x-python").2.1 (by decide)
    simpa [lastDeclaring] using h

/-- C7: `get_quality_ratio` on a MIME type absent from the resolved table
returns the integer 0; the `KeyError` is caught, so no error escapes (the
embedding is a total function, the `none` branch being the caught
`KeyError`). -/
theorem get_quality_ratio_absent_zero (lexers : List LexerInfo)
    (overrides : List (String × String × Int)) (mimetype : String)
    (h : init_types lexers overrides mimetype = none) :
    get_quality_ratio (init_types lexers overrides) mimetype = 0 := by
  rw [get_quality_ratio, h]

/-- Closed instance of C7 at a concrete table and absent MIME type. -/
theorem get_quality_ratio_absent_zero_witness :
    init_types [("py", ["text/x-python"])] [("text/html", ("html", 5))]
        "text/x-rust" = none ∧
    get_quality_ratio
        (init_types [("py", ["text/x-python"])] [("text/html", ("html", 5))])
        "text/x-rust" = 0 :=
  ⟨by decide,
   get_quality_ratio_absent_zero [("py", ["text/x-python"])]
     [("text/html", ("html", 5))] "text/x-rust" (by decide)⟩

end GrammarResolver

section RenderService

/-- The single error raised by `PygmentsRenderer.render`:
`Exception("No Pygments lexer found for mime-type '%s'." % mimetype)`,
the `UnsupportedMimeType` kind of the specification's taxonomy. -/
inductive RenderError where
  | UnsupportedMimeType (mimetype : String)
  deriving DecidableEq, Repr

/-- `mimetype.split(';', 1)[0]`: everything before the first `';'`, or the
whole string when it contains none. -/
def splitSemicolonHead (s : String) : String :=
  String.mk (s.data.takeWhile (fun c => c ≠ ';'))

/-- `PygmentsRenderer.render` without its request-context side effect
(`add_stylesheet`, pure I/O on the request).  Transcription of

```
try:
    mimetype = mimetype.split(';', 1)[0]
    language = self._types[mimetype][0]
    return self._generate(language, content)
except (KeyError, ValueError):
    raise Exception("No Pygments lexer found for mime-type '%s'." % mimetype)
```

`self._generate(language, content)` is
`GenshiHtmlFormatter().generate(get_lexer_by_name(language, stripnl=False).get_tokens(content))`;
the external `get_lexer_by_name`/`get_tokens` pair is modelled by the
parameter `tokenize`, with `none` standing for the `ValueError`
(Pygments' `ClassNotFound`) raised on a malformed grammar id.  The `KeyError`
of the table lookup and that `ValueError` are caught by the same handler. -/
def render {C : Type} (cssOf : C → String)
    (tokenize : String → String → Option (List (C × String)))
    (types : Dict (String × Int)) (mimetype content : String) :
    Except RenderError (List MarkupEvent) :=
  let mt := splitSemicolonHead mimetype
  match types mt with
  | none => Except.error (RenderError.UnsupportedMimeType mt)
  | some entry =>
      match tokenize entry.1 content with
      | none => Except.error (RenderError.UnsupportedMimeType mt)
      | some tokens => Except.ok (generate cssOf tokens)

/-- C9: `render` fails with the single `UnsupportedMimeType` error kind both
when the grammar table does not resolve the (parameter-stripped) MIME type and
when the tokenization step fails (malformed grammar id), rather than exposing
two different error kinds. -/
theorem render_failure_collapse {C : Type} (cssOf : C → String)
    (tokenize : String → String → Option (List (C × String)))
    (types : Dict (String × Int)) (mimetype content : String)
    (h : types (splitSemicolonHead mimetype) = none ∨
      ∃ entry, types (splitSemicolonHead mimetype) = some entry ∧
        tokenize entry.1 content = none) :
    render cssOf tokenize types mimetype content =
      Except.error
        (RenderError.UnsupportedMimeType (splitSemicolonHead mimetype)) := by
  rcases h with h | ⟨entry, he, ht⟩
  · simp [render, h]
  · simp [render, he, ht]

/-- Closed instance of C9 on both failure paths: an unregistered MIME type,
and a registered MIME type whose grammar id the tokenizer rejects (the MIME
type parameter suffix `; charset=utf-8` is stripped before lookup). -/
theorem render_failure_collapse_witness :
    render (fun _ : Unit => "k") (fun _ _ => none)
        (Dict.empty.set "text/x-python" ("py", 7))
        "text/x-python; charset=utf-8" "print 1" =
      Except.error (RenderError.UnsupportedMimeType "text/x-python") ∧
    render (fun _ : Unit => "k") (fun _ _ => some [((), "x")])
        (Dict.empty.set "text/x-python" ("py", 7)) "text/plain" "hello" =
      Except.error (RenderError.UnsupportedMimeType "text/plain") := by
  constructor
  · have h := render_failure_collapse (fun _ : Unit => "k") (fun _ _ => none)
      (Dict.empty.set "text/x-python" ("py", 7))
      "text/x-python; charset=utf-8" "print 1"
      (Or.inr ⟨("py", 7), by decide, rfl⟩)
    rw [show splitSemicolonHead "text/x-python; charset=utf-8" =
      "text/x-python" from by decide] at h
    exact h
  · have h := render_failure_collapse (fun _ : Unit => "k")
      (fun _ _ => some [((), "x")])
      (Dict.empty.set "text/x-python" ("py", 7)) "text/plain" "hello"
      (Or.inl (by decide))
    rw [show splitSemicolonHead "text/plain" = "text/plain" from by decide]
      at h
    exact h

end RenderService

section ThemeEndpoint

/-- What actually escapes `PygmentsRenderer.process_request` on an unknown
style name.  The handler `except ValueError, e: raise HTTPNotFound(e)`
evaluates the global name `HTTPNotFound`, but the module never binds it: the
only star import is `from trac.core import *`, which exports the component
framework (`Component`, `Interface`, `implements`, `TracError`, ...), and the
HTTP exception classes live in `trac.web.api`, from which this module imports
nothing (`from trac.web import IRequestHandler` binds only that name).  So
evaluating `HTTPNotFound` raises `NameError`, which propagates as an
unhandled internal error. -/
inductive HandlerError where
  | NameErrorUnboundHTTPNotFound
  deriving DecidableEq, Repr

/-- `PygmentsRenderer.process_request`, up to HTTP response construction:

```
style = req.args['style']
try:
    style_cls = get_style_by_name(style)
except ValueError, e:
    raise HTTPNotFound(e)
... (304 / 200 response from style_cls)
```

The external Pygments registry lookup `get_style_by_name` is modelled as a
function to `Option σ`, `none` standing for the `ValueError`
(Pygments' `ClassNotFound`) it raises on an unknown style name.  On that path
the handler body `raise HTTPNotFound(e)` itself fails with `NameError`
because `HTTPNotFound` is unbound in the module (see `HandlerError`), so the
escaping error is the `NameError`, not a "not found" response.  The rest of
the handler (file-mtime check, conditional `304`, headers, CSS body) performs
I/O on the resolved style class and is abstracted as the continuation
`respond`. -/
def process_request {σ ρ : Type} (get_style_by_name : String → Option σ)
    (respond : σ → ρ) (style : String) : Except HandlerError ρ :=
  match get_style_by_name style with
  | none => Except.error HandlerError.NameErrorUnboundHTTPNotFound
  | some style_cls => Except.ok (respond style_cls)

/-- C10: evaluation at the failing input.  For a theme name unknown to the
style registry (`get_style_by_name` raises `ClassNotFound`, a `ValueError`),
the handler catches the `ValueError` and attempts `raise HTTPNotFound(e)`,
but `HTTPNotFound` is unbound in the module, so a `NameError` — an unhandled
internal error, not the claimed "not found" HTTP response — escapes. -/
theorem process_request_unknown_style_name_error :
    process_request (fun _ => (none : Option Unit)) (fun _ => (0 : Nat))
        "nostyle" =
      Except.error HandlerError.NameErrorUnboundHTTPNotFound := rfl

end ThemeEndpoint

end PygmentsRenderer
